import Mathlib

/-!
Shallow embedding of the daily-quotes application (src/app.py) and proofs
about its search/pagination engine (`search_quotes`) and its quote store
(`save_quote`).  Machinery that the code delegates to libraries (HTTP,
dataframes) is modelled by explicit parameters: the remote paged endpoint is
a function from request parameters to a fallible page response, and the CSV
store is a list of records together with a flag saying whether the write
raises.
-/

namespace DailyQuotes

/-- A quote as returned by the remote API: `{_id, content, author}`. -/
structure Quote where
  id : String
  content : String
  author : String
deriving DecidableEq, Repr

/-- One page response of `GET /quotes`: the `results` array and the optional
`totalPages` field (the code reads it with `results.get('totalPages', 1)`). -/
structure PageResp where
  results : List Quote
  totalPages? : Option Nat
deriving DecidableEq, Repr

/-- The query parameters the code sends:
`{'limit': 50, 'maxLength': 1000, 'page': page}` plus, conditionally,
`params['author'] = author`. -/
structure Params where
  limit : Nat
  maxLength : Nat
  page : Nat
  author? : Option String
deriving DecidableEq, Repr

/-- The remote paged endpoint: a request either raises (`Except.error`,
modelling `requests.RequestException`) or yields a parsed page. -/
abbrev Remote := Params → Except Unit PageResp

instance {ε α : Type} [DecidableEq ε] [DecidableEq α] : DecidableEq (Except ε α) :=
  fun x y =>
    match x, y with
    | Except.error e₁, Except.error e₂ =>
      if h : e₁ = e₂ then isTrue (by rw [h]) else isFalse (by intro hc; cases hc; exact h rfl)
    | Except.error _, Except.ok _ => isFalse (by intro hc; cases hc)
    | Except.ok _, Except.error _ => isFalse (by intro hc; cases hc)
    | Except.ok a₁, Except.ok a₂ =>
      if h : a₁ = a₂ then isTrue (by rw [h]) else isFalse (by intro hc; cases hc; exact h rfl)

/-- Python truthiness test `author and author != "All Authors"`:
`None` and `""` are falsy, and the sentinel is excluded. -/
def isSpecific : Option String → Bool
  | none => false
  | some a => !(a == "") && !(a == "All Authors")

/-- The `author` entry added to the request parameters when the filter is a
specific author (`params['author'] = author`), absent otherwise. -/
def authorParam (author : Option String) : Option String :=
  if isSpecific author then author else none

/-- `isPrefOf n h` holds when `n` is an initial segment of `h`. -/
def isPrefOf : List Char → List Char → Bool
  | [], _ => true
  | _ :: _, [] => false
  | a :: as, b :: bs => a == b && isPrefOf as bs

/-- `containsSub n h` is Python's substring test `n in h` on character
lists: `n` occurs contiguously somewhere in `h`. -/
def containsSub (needle : List Char) : List Char → Bool
  | [] => isPrefOf needle []
  | c :: rest => isPrefOf needle (c :: rest) || containsSub needle rest

/-- Python string containment `needle in hay`. -/
def pyIn (needle hay : String) : Bool :=
  containsSub needle.data hay.data

/-- Python `str.lower()`: lowercase the string character by character. -/
def pyLower (s : String) : String :=
  String.mk (s.data.map Char.toLower)

/-- The list-comprehension predicate
`query.lower() in quote['content'].lower()`. -/
def matchesQuery (query : String) (q : Quote) : Bool :=
  pyIn (pyLower query) (pyLower q.content)

/-- The pagination loop of `search_quotes`:
`while page <= total_pages and (page <= 5 or author != "All Authors")`,
starting from `page = 1`, `total_pages = 1`, `all_results = []`.  Each
iteration issues one request (propagating a raised exception), extends the
accumulator with the page's `results`, and reads the next `total_pages`
from the response.  The Python loop has no intrinsic bound, so the
embedding takes a fuel argument; `none` means the fuel ran out before the
loop finished. -/
def searchLoop (remote : Remote) (author : Option String) :
    Nat → Nat → Nat → List Quote → Option (Except Unit (List Quote))
  | 0, _, _, _ => none
  | fuel + 1, page, totalPages, acc =>
    if page ≤ totalPages ∧ (page ≤ 5 ∨ author ≠ some "All Authors") then
      match remote { limit := 50, maxLength := 1000, page := page, author? := authorParam author } with
      | Except.error e => some (Except.error e)
      | Except.ok resp =>
        searchLoop remote author fuel (page + 1) (resp.totalPages?.getD 1) (acc ++ resp.results)
    else
      some (Except.ok acc)

/-- Values stored in the dictionary `search_quotes` returns. -/
inductive PyVal where
  | vnat : Nat → PyVal
  | vlist : List Quote → PyVal
deriving DecidableEq, Repr

/-- A Python dict with string keys, as a key-value list. -/
abbrev PyDict := List (String × PyVal)

/-- The dict returned from the `except` branch:
`{"count": 0, "results": []}`. -/
def emptyResult : PyDict :=
  [("count", PyVal.vnat 0), ("results", PyVal.vlist [])]

/-- `search_quotes(query, author)` from src/app.py: run the pagination
loop, then client-side content filtering.  If `query` is non-empty the
aggregate is filtered by `matchesQuery`, and sliced to the first 10 items
when the author filter is specific; the returned `count` is the length of
the (possibly sliced) filtered list.  If `query` is empty the `count` is
the length of the full aggregate while `results` is sliced to 10 items for
a specific author.  Any exception raised during fetching yields
`{"count": 0, "results": []}`.  `none` still means the loop ran out of
fuel. -/
def search_quotes (fuel : Nat) (query : String) (author : Option String)
    (remote : Remote) : Option PyDict :=
  match searchLoop remote author fuel 1 1 [] with
  | none => none
  | some (Except.error _) => some emptyResult
  | some (Except.ok all_results) =>
    if query ≠ "" then
      let base := all_results.filter (matchesQuery query)
      let filtered_results := if isSpecific author then base.take 10 else base
      some [("count", PyVal.vnat filtered_results.length),
            ("results", PyVal.vlist filtered_results)]
    else
      some [("count", PyVal.vnat all_results.length),
            ("results", PyVal.vlist (if isSpecific author then all_results.take 10 else all_results))]

/-- The index of the last page the loop fetches against a remote that
always reports `totalPages = T`: `min T 5` under the "All Authors"
sentinel (the 5-page cap), `T` otherwise. -/
def fetchEnd (author : Option String) (T : Nat) : Nat :=
  if author = some "All Authors" then min T 5 else T

/-- A well-behaved remote: page `n` holds `pages n`, every response
reports `totalPages = T`, and no request raises. -/
def mkRemote (pages : Nat → List Quote) (T : Nat) : Remote :=
  fun pr => Except.ok { results := pages pr.page, totalPages? := some T }

/-- A remote that serves `pages n` with `totalPages = T` on every page
except page `k`, where the request raises. -/
def failAt (pages : Nat → List Quote) (T k : Nat) : Remote :=
  fun pr =>
    if pr.page = k then Except.error ()
    else Except.ok { results := pages pr.page, totalPages? := some T }

/-- The concatenation, in order, of pages `1..n`. -/
def pagesConcat (pages : Nat → List Quote) (n : Nat) : List Quote :=
  ((List.range' 1 n).map pages).flatten

/-- A record of the saved-quotes CSV: columns `quote, author, date_saved`. -/
structure SavedRec where
  quote : String
  author : String
  date_saved : String
deriving DecidableEq, Repr

/-- `save_quote(quote, author)` from src/app.py over an explicit store
state.  The duplicate test is the dataframe mask
`df[(df['quote'] == quote) & (df['author'] == author)].empty`; on a fresh
pair the new row (timestamped `now`) is appended and written.
`writeFails` models `df.to_csv` raising, which the `except` clause turns
into `False`. -/
def save_quote (store : List SavedRec) (q a now : String) (writeFails : Bool) :
    Bool × List SavedRec :=
  if (store.filter (fun r => r.quote == q && r.author == a)).isEmpty then
    if writeFails then (false, store)
    else (true, store ++ [{ quote := q, author := a, date_saved := now }])
  else
    (false, store)

/-- Number of store records equal to the pair `(q, a)`. -/
def pairCount (store : List SavedRec) (q a : String) : Nat :=
  (store.filter (fun r => r.quote == q && r.author == a)).length

/-- One single-quote page per page number, content = decimal page number. -/
def cpages : Nat → List Quote :=
  fun n => [{ id := "", content := Nat.repr n, author := "A" }]

/-- One single-quote page per page number, content `a<n>`, author X. -/
def mpages : Nat → List Quote :=
  fun n => [{ id := "", content := "a" ++ Nat.repr n, author := "X" }]

/-- A single page holding 12 quotes. -/
def bigPage : Nat → List Quote :=
  fun _ => (List.range 12).map (fun i => { id := "", content := Nat.repr i, author := "A" })

/-- A remote on which every request raises. -/
def failRemote : Remote := fun _ => Except.error ()

/-! ## Lemmas about the pagination loop -/

lemma isSpecific_ne_all {a : Option String} (h : isSpecific a = true) :
    a ≠ some "All Authors" := by
  cases a with
  | none => simp [isSpecific] at h
  | some s =>
    simp only [isSpecific, Bool.and_eq_true, Bool.not_eq_true', beq_eq_false_iff_ne] at h
    intro hc
    exact h.2 (Option.some.inj hc)

lemma fetchEnd_of_ne_all {a : Option String} (T : Nat) (h : a ≠ some "All Authors") :
    fetchEnd a T = T := by
  simp [fetchEnd, h]

lemma fetchEnd_all (T : Nat) : fetchEnd (some "All Authors") T = min T 5 := by
  simp [fetchEnd]

lemma one_le_fetchEnd (a : Option String) {T : Nat} (hT : 1 ≤ T) :
    1 ≤ fetchEnd a T := by
  unfold fetchEnd
  split
  · exact le_min hT (by omega)
  · exact hT

lemma loopCond_true {a : Option String} {T page : Nat} (h : page ≤ fetchEnd a T) :
    page ≤ T ∧ (page ≤ 5 ∨ a ≠ some "All Authors") := by
  by_cases hA : a = some "All Authors"
  · subst hA
    rw [fetchEnd_all] at h
    exact ⟨le_trans h (min_le_left _ _), Or.inl (le_trans h (min_le_right _ _))⟩
  · rw [fetchEnd_of_ne_all T hA] at h
    exact ⟨h, Or.inr hA⟩

lemma loopCond_false (a : Option String) (T : Nat) :
    ¬(fetchEnd a T + 1 ≤ T ∧ (fetchEnd a T + 1 ≤ 5 ∨ a ≠ some "All Authors")) := by
  by_cases hA : a = some "All Authors"
  · subst hA
    rw [fetchEnd_all]
    rintro ⟨h1, h2 | h2⟩
    · omega
    · exact h2 rfl
  · rw [fetchEnd_of_ne_all T hA]
    rintro ⟨h1, _⟩
    omega

/-- Running the loop against `mkRemote pages T` from an intermediate state
(page ≥ 2, latest-observed total `T`) appends exactly the pages from the
current one through `fetchEnd a T`. -/
lemma searchLoop_run (pages : Nat → List Quote) (T : Nat) (a : Option String) :
    ∀ fuel page acc, 2 ≤ page → page ≤ fetchEnd a T + 1 →
      fetchEnd a T + 2 ≤ page + fuel →
      searchLoop (mkRemote pages T) a fuel page T acc =
        some (Except.ok
          (acc ++ ((List.range' page (fetchEnd a T + 1 - page)).map pages).flatten)) := by
  intro fuel
  induction fuel with
  | zero => intro page acc _ h2 h3; omega
  | succ f ih =>
    intro page acc h1 h2 h3
    rcases eq_or_lt_of_le h2 with heq | hlt
    · rw [heq]
      simp only [searchLoop]
      rw [if_neg (loopCond_false a T)]
      simp
    · have hpE : page ≤ fetchEnd a T := by omega
      simp only [searchLoop]
      rw [if_pos (loopCond_true hpE)]
      simp only [mkRemote, Option.getD]
      rw [ih (page + 1) _ (by omega) (by omega) (by omega)]
      have hsub : fetchEnd a T + 1 - page = (fetchEnd a T - page) + 1 := by omega
      rw [hsub, List.range'_succ]
      simp [List.append_assoc]

/-- Against a remote that always reports `totalPages = T ≥ 1` and never
fails, the loop aggregates exactly pages `1 .. fetchEnd a T`, in order. -/
lemma searchLoop_const (pages : Nat → List Quote) (T : Nat) (a : Option String) (fuel : Nat)
    (hT : 1 ≤ T) (hf : fetchEnd a T + 1 ≤ fuel) :
    searchLoop (mkRemote pages T) a fuel 1 1 [] =
      some (Except.ok (pagesConcat pages (fetchEnd a T))) := by
  obtain ⟨f, rfl⟩ : ∃ f, fuel = f + 1 := ⟨fuel - 1, by omega⟩
  have hE : 1 ≤ fetchEnd a T := one_le_fetchEnd a hT
  simp only [searchLoop]
  rw [if_pos ⟨le_refl 1, Or.inl (by omega)⟩]
  simp only [mkRemote, Option.getD]
  rw [searchLoop_run pages T a f 2 _ (le_refl 2) (by omega) (by omega)]
  have h1 : fetchEnd a T = (fetchEnd a T - 1) + 1 := by omega
  rw [pagesConcat, h1, List.range'_succ]
  simp

/-- If the remote raises at page `k` (within the range the loop visits),
reaching `k` from an intermediate state surfaces the exception. -/
lemma searchLoop_fail_run (pages : Nat → List Quote) (T k : Nat) (a : Option String)
    (hkE : k ≤ fetchEnd a T) :
    ∀ fuel page acc, 2 ≤ page → page ≤ k → k + 1 ≤ page + fuel →
      searchLoop (failAt pages T k) a fuel page T acc = some (Except.error ()) := by
  intro fuel
  induction fuel with
  | zero => intro page acc _ h2 h3; omega
  | succ f ih =>
    intro page acc h1 h2 h3
    have hpE : page ≤ fetchEnd a T := le_trans h2 hkE
    simp only [searchLoop]
    rw [if_pos (loopCond_true hpE)]
    by_cases hpk : page = k
    · simp [failAt, hpk]
    · simp only [failAt, if_neg hpk]
      exact ih (page + 1) _ (by omega) (by omega) (by omega)

/-- A raised request at any page `k` in `1 .. fetchEnd a T` aborts the
whole loop with the exception, no matter how many pages succeeded first. -/
lemma searchLoop_fail (pages : Nat → List Quote) (T k : Nat) (a : Option String) (fuel : Nat)
    (hk1 : 1 ≤ k) (hkE : k ≤ fetchEnd a T) (hf : k + 1 ≤ fuel) :
    searchLoop (failAt pages T k) a fuel 1 1 [] = some (Except.error ()) := by
  obtain ⟨f, rfl⟩ : ∃ f, fuel = f + 1 := ⟨fuel - 1, by omega⟩
  simp only [searchLoop]
  rw [if_pos ⟨le_refl 1, Or.inl (by omega)⟩]
  by_cases hk : k = 1
  · simp [failAt, hk]
  · simp only [failAt, if_neg (by omega : ¬(1 = k))]
    simp only [Option.getD]
    exact searchLoop_fail_run pages T k a hkE f 2 _ (le_refl 2) (by omega) (by omega)

/-- The loop consults the remote only at parameter records whose `author?`
entry is `authorParam a`; in particular, when the filter is not specific,
two remotes agreeing on author-less requests drive the loop identically. -/
lemma searchLoop_agree (r₁ r₂ : Remote) (a : Option String) (hA : isSpecific a = false)
    (hr : ∀ pr : Params, pr.author? = none → r₁ pr = r₂ pr) :
    ∀ fuel page totalPages acc,
      searchLoop r₁ a fuel page totalPages acc = searchLoop r₂ a fuel page totalPages acc := by
  intro fuel
  induction fuel with
  | zero => intro page t acc; rfl
  | succ f ih =>
    intro page t acc
    simp only [searchLoop]
    split
    · have hp : authorParam a = none := by simp [authorParam, hA]
      rw [hr { limit := 50, maxLength := 1000, page := page, author? := authorParam a } hp]
      cases hx : r₂ { limit := 50, maxLength := 1000, page := page, author? := authorParam a } with
      | error e => rfl
      | ok resp => exact ih _ _ _
    · rfl

/-! ## The substring test -/

lemma isPrefOf_iff (n : List Char) : ∀ h : List Char,
    isPrefOf n h = true ↔ ∃ post, h = n ++ post := by
  induction n with
  | nil => intro h; simp [isPrefOf]
  | cons a as ih =>
    intro h
    cases h with
    | nil => simp [isPrefOf]
    | cons b bs =>
      simp only [isPrefOf, Bool.and_eq_true, beq_iff_eq, ih bs, List.cons_append,
        List.cons.injEq]
      constructor
      · rintro ⟨rfl, post, rfl⟩
        exact ⟨post, rfl, rfl⟩
      · rintro ⟨post, rfl, rfl⟩
        exact ⟨rfl, post, rfl⟩

lemma containsSub_iff (n : List Char) : ∀ h : List Char,
    containsSub n h = true ↔ ∃ pre post, h = pre ++ n ++ post := by
  intro h
  induction h with
  | nil =>
    simp only [containsSub, isPrefOf_iff]
    constructor
    · rintro ⟨post, hpost⟩
      exact ⟨[], post, by simpa using hpost⟩
    · rintro ⟨pre, post, hh⟩
      rw [List.append_assoc] at hh
      obtain ⟨hpre, hnp⟩ := List.append_eq_nil.mp hh.symm
      obtain ⟨hn, hpost⟩ := List.append_eq_nil.mp hnp
      exact ⟨[], by simp [hn]⟩
  | cons c t ih =>
    simp only [containsSub, Bool.or_eq_true, isPrefOf_iff, ih]
    constructor
    · rintro (⟨post, hpost⟩ | ⟨pre, post, hh⟩)
      · exact ⟨[], post, by simpa using hpost⟩
      · exact ⟨c :: pre, post, by simp [hh]⟩
    · rintro ⟨pre, post, hh⟩
      cases pre with
      | nil => exact Or.inl ⟨post, by simpa using hh⟩
      | cons p ps =>
        simp only [List.cons_append, List.cons.injEq] at hh
        exact Or.inr ⟨ps, post, hh.2⟩

/-- `matchesQuery` is exactly "the lowercased query occurs contiguously in
the lowercased content". -/
lemma matchesQuery_iff (query : String) (q : Quote) :
    matchesQuery query q = true ↔
      ∃ pre post, (pyLower q.content).data = pre ++ (pyLower query).data ++ post := by
  rw [matchesQuery, pyIn, containsSub_iff]

/-! ## Claims -/

/-- C1 is false of the code: against a remote that constantly reports
`totalPages = 7` and serves one quote per page, a specific-author search
aggregates all 7 pages.  The quote served only on page 6 appears in the
aggregate, the count is 7, and the aggregate differs from the 5-page
aggregate the claim predicts — so the engine does fetch a 6th page. -/
theorem claim1_counterexample :
    search_quotes 20 "" (some "A") (mkRemote cpages 7) =
      some [("count", PyVal.vnat 7), ("results", PyVal.vlist (pagesConcat cpages 7))] ∧
    Quote.mk "" "6" "A" ∈ pagesConcat cpages 7 ∧
    pagesConcat cpages 7 ≠ pagesConcat cpages 5 := by
  refine ⟨by decide, by decide, by decide⟩

/-- C1 (amended): for a search whose authorFilter names a specific author
the loop fetches pages sequentially from page 1 until the latest-observed
`totalPages` is reached, with NO 5-page cap: against a remote constantly
reporting `totalPages = T ≥ 1` it aggregates every page `1 .. T`, also
when `T > 5`. -/
theorem claim1_author_no_page_cap (pages : Nat → List Quote) (T fuel : Nat)
    (a : Option String) (hA : isSpecific a = true) (hT : 1 ≤ T) (hf : T + 1 ≤ fuel) :
    searchLoop (mkRemote pages T) a fuel 1 1 [] =
      some (Except.ok (pagesConcat pages T)) := by
  have hE := fetchEnd_of_ne_all T (isSpecific_ne_all hA)
  have h := searchLoop_const pages T a fuel hT (by rw [hE]; exact hf)
  rwa [hE] at h

/-- C1 witness: the amended theorem applied at `T = 7`. -/
theorem claim1_witness :
    (isSpecific (some "A") = true ∧ 1 ≤ 7 ∧ 7 + 1 ≤ 20) ∧
    searchLoop (mkRemote cpages 7) (some "A") 20 1 1 [] =
      some (Except.ok (pagesConcat cpages 7)) :=
  ⟨⟨by decide, by decide, by decide⟩,
    claim1_author_no_page_cap cpages 7 20 (some "A") (by decide) (by decide) (by decide)⟩

/-- C2 is false of the code: with authorFilter "All Authors" and content
term "a", against a remote constantly reporting `totalPages = 6` whose
every page holds one matching quote, only pages 1–5 are aggregated; the
page-6 quote matches the term upstream but is absent from the result. -/
theorem claim2_counterexample :
    search_quotes 20 "a" (some "All Authors") (mkRemote mpages 6) =
      some [("count", PyVal.vnat 5), ("results", PyVal.vlist (pagesConcat mpages 5))] ∧
    matchesQuery "a" (Quote.mk "" "a6" "X") = true ∧
    Quote.mk "" "a6" "X" ∈ mpages 6 ∧
    Quote.mk "" "a6" "X" ∉ pagesConcat mpages 5 := by
  refine ⟨by decide, by decide, by decide, by decide⟩

/-- C2 (amended): with authorFilter "All Authors" the loop is capped at 5
pages: against a remote constantly reporting `totalPages = T ≥ 1` it
aggregates exactly pages `1 .. min T 5`, so upstream items beyond page 5
never enter the candidate pool. -/
theorem claim2_all_authors_page_cap (pages : Nat → List Quote) (T fuel : Nat)
    (hT : 1 ≤ T) (hf : min T 5 + 1 ≤ fuel) :
    searchLoop (mkRemote pages T) (some "All Authors") fuel 1 1 [] =
      some (Except.ok (pagesConcat pages (min T 5))) := by
  have hE := fetchEnd_all T
  have h := searchLoop_const pages T (some "All Authors") fuel hT (by rw [hE]; exact hf)
  rwa [hE] at h

/-- C2 witness: the amended theorem applied at `T = 6`. -/
theorem claim2_witness :
    (1 ≤ 6 ∧ min 6 5 + 1 ≤ 20) ∧
    searchLoop (mkRemote mpages 6) (some "All Authors") 20 1 1 [] =
      some (Except.ok (pagesConcat mpages (min 6 5))) :=
  ⟨⟨by decide, by decide⟩,
    claim2_all_authors_page_cap mpages 6 20 (by decide) (by decide)⟩

/-- C3 is false of the code: on a specific-author search whose pre-cap
aggregated count is 12 (> 10) — where the claim demands `truncated = true`
— the returned mapping has no "truncated" key at all (its `count` entry is
12). -/
theorem claim3_counterexample :
    (search_quotes 6 "" (some "A") (mkRemote bigPage 1)).map
        (fun d => List.lookup "truncated" d) = some none ∧
    (search_quotes 6 "" (some "A") (mkRemote bigPage 1)).map
        (fun d => List.lookup "count" d) = some (some (PyVal.vnat 12)) ∧
    isSpecific (some "A") = true := by
  refine ⟨by decide, by decide, by decide⟩

/-- C3 (amended): no result of `search_quotes` carries a truncated flag:
every returned mapping — from the success branches and from the failure
branch alike — has exactly the keys "count" and "results". -/
theorem claim3_no_truncated_key (fuel : Nat) (q : String) (a : Option String)
    (r : Remote) (d : PyDict) (h : search_quotes fuel q a r = some d) :
    d.map Prod.fst = ["count", "results"] := by
  unfold search_quotes at h
  cases hx : searchLoop r a fuel 1 1 [] with
  | none => rw [hx] at h; simp at h
  | some exc =>
    rw [hx] at h
    cases exc with
    | error e =>
      obtain rfl := Option.some.inj h
      rfl
    | ok all_results =>
      dsimp only at h
      by_cases hq : q = ""
      · rw [if_neg (not_not_intro hq)] at h
        obtain rfl := Option.some.inj h
        rfl
      · rw [if_pos hq] at h
        obtain rfl := Option.some.inj h
        rfl

/-- C3 witness: the amended theorem applied at a concrete one-page search. -/
theorem claim3_witness :
    search_quotes 2 "" none (mkRemote cpages 1) =
      some [("count", PyVal.vnat 1), ("results", PyVal.vlist (cpages 1))] ∧
    ([("count", PyVal.vnat 1), ("results", PyVal.vlist (cpages 1))] : PyDict).map Prod.fst =
      ["count", "results"] :=
  ⟨by decide, claim3_no_truncated_key 2 "" none (mkRemote cpages 1)
    [("count", PyVal.vnat 1), ("results", PyVal.vlist (cpages 1))] (by decide)⟩

/-- C4 is false of the code: with an empty content term and a specific
author, a 12-item aggregate yields `count = 12` while only 10 items are
returned. -/
theorem claim4_counterexample :
    search_quotes 6 "" (some "A") (mkRemote bigPage 1) =
      some [("count", PyVal.vnat 12), ("results", PyVal.vlist ((bigPage 1).take 10))] ∧
    ((bigPage 1).take 10).length = 10 ∧ (12 : Nat) ≠ 10 := by
  refine ⟨by decide, by decide, by decide⟩

/-- C4 (amended): `count` equals the length of the returned list in every
branch except the one with empty content term and specific author, where
`count` is the pre-cap aggregated count and the returned list is the
aggregate capped to 10. -/
theorem claim4_count_policy (fuel : Nat) (q : String) (a : Option String)
    (r : Remote) (c : Nat) (rs agg : List Quote)
    (hLoop : searchLoop r a fuel 1 1 [] = some (Except.ok agg))
    (h : search_quotes fuel q a r =
      some [("count", PyVal.vnat c), ("results", PyVal.vlist rs)]) :
    (¬(q = "" ∧ isSpecific a = true) → c = rs.length) ∧
    (q = "" → isSpecific a = true → c = agg.length ∧ rs = agg.take 10) := by
  unfold search_quotes at h
  rw [hLoop] at h
  dsimp only at h
  by_cases hq : q = ""
  · rw [if_neg (not_not_intro hq)] at h
    simp at h
    obtain ⟨hc, hrs⟩ := h
    by_cases hA : isSpecific a = true
    · simp [hA] at hrs
      exact ⟨fun hco => absurd ⟨hq, hA⟩ hco, fun _ _ => ⟨hc.symm, hrs.symm⟩⟩
    · simp only [Bool.not_eq_true] at hA
      simp [hA] at hrs
      refine ⟨fun _ => ?_, fun _ hA2 => absurd hA2 (by simp [hA])⟩
      rw [← hc, hrs]
  · rw [if_pos hq] at h
    simp at h
    obtain ⟨hc, hrs⟩ := h
    exact ⟨fun _ => by rw [← hc, ← hrs], fun hq2 => absurd hq2 hq⟩

/-- C4 witness: the amended theorem applied at the 12-item one-page
search. -/
theorem claim4_witness :
    (¬(("" : String) = "" ∧ isSpecific (some "A") = true) →
      (12 : Nat) = ((bigPage 1).take 10).length) ∧
    (("" : String) = "" → isSpecific (some "A") = true →
      (12 : Nat) = (bigPage 1).length ∧ (bigPage 1).take 10 = (bigPage 1).take 10) :=
  claim4_count_policy 6 "" (some "A") (mkRemote bigPage 1) 12 ((bigPage 1).take 10)
    (bigPage 1) (by decide) (by decide)

/-- C5 is false as stated: on a failing fetch the code returns the mapping
`{"count": 0, "results": []}`, which carries no "truncated" key, so the
result is not `{totalMatched: 0, quotes: [], truncated: false}`. -/
theorem claim5_counterexample :
    search_quotes 6 "a" (some "All Authors") failRemote = some emptyResult ∧
    List.lookup "truncated" emptyResult = none ∧
    List.lookup "count" emptyResult = some (PyVal.vnat 0) ∧
    List.lookup "results" emptyResult = some (PyVal.vlist []) := by
  refine ⟨by decide, by decide, by decide, by decide⟩

/-- C5 (amended): a raised request at any page `k` within the visited
range aborts the whole search with `{"count": 0, "results": []}` — the
pages `1 .. k-1` that were fetched successfully are discarded and none of
their items appear in the result. -/
theorem claim5_failure_discards_fetched_pages (pages : Nat → List Quote) (T k fuel : Nat)
    (q : String) (a : Option String)
    (hk1 : 1 ≤ k) (hkE : k ≤ fetchEnd a T) (hf : k + 1 ≤ fuel) :
    searchLoop (failAt pages T k) a fuel 1 1 [] = some (Except.error ()) ∧
    search_quotes fuel q a (failAt pages T k) = some emptyResult := by
  have hfail := searchLoop_fail pages T k a fuel hk1 hkE hf
  refine ⟨hfail, ?_⟩
  unfold search_quotes
  rw [hfail]

/-- C5 witness: the amended theorem applied with a failure on page 2 of
3. -/
theorem claim5_witness :
    (1 ≤ 2 ∧ 2 ≤ fetchEnd none 3 ∧ 2 + 1 ≤ 6) ∧
    (searchLoop (failAt cpages 3 2) none 6 1 1 [] = some (Except.error ()) ∧
     search_quotes 6 "" none (failAt cpages 3 2) = some emptyResult) :=
  ⟨⟨by decide, by decide, by decide⟩,
    claim5_failure_discards_fetched_pages cpages 3 2 6 "" none (by decide) (by decide) (by decide)⟩

/-- C6: with a specific author the returned list is the first 10 items, in
aggregation order, of the aggregate (content-filtered first when a term is
given); in particular its length is at most 10. -/
theorem claim6_specific_author_cap (fuel : Nat) (q : String) (a : Option String)
    (r : Remote) (c : Nat) (rs agg : List Quote)
    (hA : isSpecific a = true)
    (hLoop : searchLoop r a fuel 1 1 [] = some (Except.ok agg))
    (h : search_quotes fuel q a r =
      some [("count", PyVal.vnat c), ("results", PyVal.vlist rs)]) :
    rs = (if q = "" then agg else agg.filter (matchesQuery q)).take 10 ∧
    rs.length ≤ 10 := by
  unfold search_quotes at h
  rw [hLoop] at h
  dsimp only at h
  by_cases hq : q = ""
  · rw [if_neg (not_not_intro hq)] at h
    simp [hA] at h
    obtain ⟨-, hrs⟩ := h
    rw [← hrs]
    exact ⟨by simp [hq], List.length_take_le 10 agg⟩
  · rw [if_pos hq] at h
    simp [hA] at h
    obtain ⟨-, hrs⟩ := h
    rw [← hrs]
    exact ⟨by simp [hq], List.length_take_le 10 _⟩

/-- C6 witness: the cap theorem applied at the 12-item one-page search. -/
theorem claim6_witness :
    (isSpecific (some "A") = true ∧
      (bigPage 1).take 10 =
        (if ("" : String) = "" then bigPage 1
         else (bigPage 1).filter (matchesQuery "")).take 10 ∧
      ((bigPage 1).take 10).length ≤ 10) :=
  ⟨by decide,
    claim6_specific_author_cap 6 "" (some "A") (mkRemote bigPage 1) 12
      ((bigPage 1).take 10) (bigPage 1) (by decide) (by decide) (by decide)⟩

/-- C7: with no author restriction the returned list is exactly the
content filter of the aggregate: with an empty term everything is
retained; with a non-empty term the result is an order-preserving
sub-sequence of the aggregate and an item is retained precisely when its
lowercased content contains the lowercased term contiguously. -/
theorem claim7_content_filter_exact (fuel : Nat) (q : String) (a : Option String)
    (r : Remote) (c : Nat) (rs agg : List Quote)
    (hA : isSpecific a = false)
    (hLoop : searchLoop r a fuel 1 1 [] = some (Except.ok agg))
    (h : search_quotes fuel q a r =
      some [("count", PyVal.vnat c), ("results", PyVal.vlist rs)]) :
    (q = "" → rs = agg) ∧
    (q ≠ "" → List.Sublist rs agg ∧
      ∀ x : Quote, x ∈ rs ↔ x ∈ agg ∧
        ∃ pre post, (pyLower x.content).data = pre ++ (pyLower q).data ++ post) := by
  unfold search_quotes at h
  rw [hLoop] at h
  dsimp only at h
  by_cases hq : q = ""
  · rw [if_neg (not_not_intro hq)] at h
    simp [hA] at h
    obtain ⟨-, hrs⟩ := h
    exact ⟨fun _ => hrs.symm, fun hq2 => absurd hq hq2⟩
  · rw [if_pos hq] at h
    simp [hA] at h
    obtain ⟨-, hrs⟩ := h
    refine ⟨fun hq2 => absurd hq2 hq, fun _ => ⟨?_, ?_⟩⟩
    · rw [← hrs]
      exact List.filter_sublist agg
    · intro x
      rw [← hrs, List.mem_filter, matchesQuery_iff]

/-- C7 witness: the filter theorem applied to the capped "All Authors"
search over 6 matching pages. -/
theorem claim7_witness :
    (isSpecific (some "All Authors") = false ∧
      ((("a" : String) = "" →
        (pagesConcat mpages 5).filter (matchesQuery "a") = pagesConcat mpages 5) ∧
       (("a" : String) ≠ "" →
        List.Sublist ((pagesConcat mpages 5).filter (matchesQuery "a")) (pagesConcat mpages 5) ∧
        ∀ x : Quote, x ∈ (pagesConcat mpages 5).filter (matchesQuery "a") ↔
          x ∈ pagesConcat mpages 5 ∧
          ∃ pre post, (pyLower x.content).data = pre ++ (pyLower "a").data ++ post))) :=
  ⟨by decide,
    claim7_content_filter_exact 20 "a" (some "All Authors") (mkRemote mpages 6) 5
      ((pagesConcat mpages 5).filter (matchesQuery "a")) (pagesConcat mpages 5)
      (by decide) (by decide) (by decide)⟩

/-- C8: on a store with no record equal to the pair, the first append
returns true and the store becomes the old store plus exactly one new
matching record; the second identical append returns false and leaves the
store unchanged. -/
theorem claim8_append_twice (store : List SavedRec) (q a t₁ t₂ : String)
    (h : pairCount store q a = 0) :
    (save_quote store q a t₁ false).fst = true ∧
    (save_quote store q a t₁ false).snd =
      store ++ [{ quote := q, author := a, date_saved := t₁ }] ∧
    pairCount (save_quote store q a t₁ false).snd q a = 1 ∧
    (save_quote (save_quote store q a t₁ false).snd q a t₂ false).fst = false ∧
    (save_quote (save_quote store q a t₁ false).snd q a t₂ false).snd =
      (save_quote store q a t₁ false).snd := by
  have hnil : store.filter (fun r => r.quote == q && r.author == a) = [] :=
    List.length_eq_zero.mp h
  have hempty : (store.filter (fun r => r.quote == q && r.author == a)).isEmpty = true := by
    rw [hnil]
    rfl
  have h1 : save_quote store q a t₁ false =
      (true, store ++ [{ quote := q, author := a, date_saved := t₁ }]) := by
    unfold save_quote
    rw [if_pos hempty]
    rfl
  have hfilter2 : (store ++ [({ quote := q, author := a, date_saved := t₁ } : SavedRec)]).filter
      (fun r => r.quote == q && r.author == a) =
      [{ quote := q, author := a, date_saved := t₁ }] := by
    rw [List.filter_append, hnil]
    simp
  have h2 : save_quote (store ++ [({ quote := q, author := a, date_saved := t₁ } : SavedRec)])
      q a t₂ false =
      (false, store ++ [({ quote := q, author := a, date_saved := t₁ } : SavedRec)]) := by
    unfold save_quote
    rw [hfilter2]
    rfl
  rw [h1]
  refine ⟨rfl, rfl, ?_, ?_, ?_⟩
  · unfold pairCount
    rw [hfilter2]
    rfl
  · rw [h2]
  · rw [h2]

/-- C8 witness: the theorem applied on the empty store. -/
theorem claim8_witness :
    pairCount [] "x" "y" = 0 ∧
    ((save_quote [] "x" "y" "t1" false).fst = true ∧
     (save_quote [] "x" "y" "t1" false).snd =
       [] ++ [{ quote := "x", author := "y", date_saved := "t1" }] ∧
     pairCount (save_quote [] "x" "y" "t1" false).snd "x" "y" = 1 ∧
     (save_quote (save_quote [] "x" "y" "t1" false).snd "x" "y" "t2" false).fst = false ∧
     (save_quote (save_quote [] "x" "y" "t1" false).snd "x" "y" "t2" false).snd =
       (save_quote [] "x" "y" "t1" false).snd) :=
  ⟨by decide, claim8_append_twice [] "x" "y" "t1" "t2" (by decide)⟩

/-- C9 is false of the code: when the pair is absent from the store but
the write raises, `save_quote` returns false too — a false return does not
imply the pair was already saved. -/
theorem claim9_counterexample :
    (save_quote [] "x" "y" "t" true).fst = false ∧ pairCount [] "x" "y" = 0 := by
  exact ⟨rfl, rfl⟩

/-- C9 (amended): `save_quote` returns false exactly when the pair is
already present or the persistence write fails; the boolean result does
not distinguish the two outcomes. -/
theorem claim9_false_iff (store : List SavedRec) (q a t : String) (wf : Bool) :
    (save_quote store q a t wf).fst = false ↔ (pairCount store q a ≠ 0 ∨ wf = true) := by
  unfold save_quote pairCount
  by_cases hemp : (store.filter (fun r => r.quote == q && r.author == a)).isEmpty = true
  · rw [if_pos hemp]
    have hlen : (store.filter (fun r => r.quote == q && r.author == a)).length = 0 := by
      rw [List.isEmpty_iff.mp hemp]
      rfl
    cases wf
    · simp [hlen]
    · simp [hlen]
  · rw [if_neg hemp]
    have hlen : (store.filter (fun r => r.quote == q && r.author == a)).length ≠ 0 := by
      intro hc
      exact hemp (by rw [List.length_eq_zero.mp hc]; rfl)
    simp [hlen]

/-- C10: called with no author at all (`None`), the loop runs to the
latest-observed `totalPages` with no 5-page cap, the remote is consulted
only through author-less parameter records (any remote agreeing with the
reference one on those gives the same run), and the returned list is the
full (optionally content-filtered) aggregate — never capped to 10 — with
`count` equal to its length. -/
theorem claim10_none_author_behavior (pages : Nat → List Quote) (T fuel : Nat) (q : String)
    (r : Remote) (hT : 1 ≤ T) (hf : T + 1 ≤ fuel)
    (hr : ∀ pr : Params, pr.author? = none → r pr = mkRemote pages T pr) :
    searchLoop r none fuel 1 1 [] = some (Except.ok (pagesConcat pages T)) ∧
    search_quotes fuel q none r =
      some [("count", PyVal.vnat (if q = "" then pagesConcat pages T
              else (pagesConcat pages T).filter (matchesQuery q)).length),
            ("results", PyVal.vlist (if q = "" then pagesConcat pages T
              else (pagesConcat pages T).filter (matchesQuery q)))] := by
  have hA : isSpecific (none : Option String) = false := rfl
  have hE : fetchEnd none T = T := fetchEnd_of_ne_all T (by simp)
  have hloop : searchLoop r none fuel 1 1 [] = some (Except.ok (pagesConcat pages T)) := by
    rw [searchLoop_agree r (mkRemote pages T) none hA hr fuel 1 1 []]
    have h := searchLoop_const pages T none fuel hT (by rw [hE]; exact hf)
    rwa [hE] at h
  refine ⟨hloop, ?_⟩
  unfold search_quotes
  rw [hloop]
  dsimp only
  by_cases hq : q = ""
  · rw [if_neg (not_not_intro hq)]
    simp [hq, hA]
  · rw [if_pos hq]
    simp [hq, hA]

/-- C10 witness: the theorem applied with `totalPages = 7` and an empty
content term: all 7 pages are aggregated and returned uncapped. -/
theorem claim10_witness :
    (1 ≤ 7 ∧ 7 + 1 ≤ 20) ∧
    (searchLoop (mkRemote cpages 7) none 20 1 1 [] =
       some (Except.ok (pagesConcat cpages 7)) ∧
     search_quotes 20 "" none (mkRemote cpages 7) =
       some [("count", PyVal.vnat (if ("" : String) = "" then pagesConcat cpages 7
               else (pagesConcat cpages 7).filter (matchesQuery "")).length),
             ("results", PyVal.vlist (if ("" : String) = "" then pagesConcat cpages 7
               else (pagesConcat cpages 7).filter (matchesQuery "")))]) :=
  ⟨⟨by decide, by decide⟩,
    claim10_none_author_behavior cpages 7 20 "" (mkRemote cpages 7)
      (by decide) (by decide) (fun _ _ => rfl)⟩

end DailyQuotes
